import Mathlib

/-!
Verification of the Polymarket/Kalshi arbitrage bot's core:
a shallow embedding of the arbitrage detector & executor (src/unnamed/part_002,
function `checkArbAndPlaceOrders`), the poll scheduler (`scheduleNext` / `poll`),
the venue price readers (`getMarketPrices`, `getPolymarketAskPrices`,
`getDualPrices`), the token-id cache (`getTokenIdsForSlugCached`,
src/src/polymarket-monitor.ts) and the order-placement price handling
(`placeOrder` in src/unnamed/part_003, `placePolymarketOrder` in
src/src/polymarket-order.ts).

Modelling conventions:
* JS numbers are modelled as exact rationals (ℚ); integer cent values as ℤ.
  `Number.isFinite` is `true` on every rational, so the finiteness guard of
  `inRange` disappears; NaN/Infinity outcomes of `parseFloat` are modelled by
  `Option ℚ` with `none` standing for a non-finite result.
* `Math.round` in JS is `floor (x + 1/2)`, defined below as `jsRound`.
* External calls (Kalshi REST, Gamma API, CLOB, order submission) are modelled
  by environment records of functions returning `Except`/`Option` results, so
  every possible success/failure pattern of the collaborators is quantified over.
* Side effects (log lines and the two venues' order submissions) are collected
  in an explicit effect list, in the temporal order the code performs them.
* The process-global mutable state (`upArbDoneTickers`, `downArbDoneTickers`,
  `tokenIdsCache`) is passed explicitly and returned updated.
-/

namespace PKArb

/-- JS `Math.round`: round half toward positive infinity, `⌊x + 1/2⌋`. -/
def jsRound (q : ℚ) : ℤ := ⌊q + 1 / 2⌋

/-- Arb-relevant configuration values (src config: `ARB_*` constants).
Defaults: `ARB_SUM_THRESHOLD` 0.92, `ARB_SUM_LOW` 0.75, `ARB_PRICE_BUFFER` 0.01,
`ARB_SIZE` 1, `ARB_KALSHI_MIN` 1, `ARB_POLY_MIN` 1. -/
structure ArbConfig where
  ARB_SUM_LOW : ℚ
  ARB_SUM_THRESHOLD : ℚ
  ARB_PRICE_BUFFER : ℚ
  ARB_SIZE : ℚ
  ARB_KALSHI_MIN : ℤ
  ARB_POLY_MIN : ℚ
  ARB_DRY_RUN : Bool
deriving Repr, DecidableEq

/-- The configuration obtained from the documented env-var defaults. -/
def defaultArbConfig : ArbConfig where
  ARB_SUM_LOW := 3 / 4
  ARB_SUM_THRESHOLD := 23 / 25
  ARB_PRICE_BUFFER := 1 / 100
  ARB_SIZE := 1
  ARB_KALSHI_MIN := 1
  ARB_POLY_MIN := 1
  ARB_DRY_RUN := false

/-- Function `inRange` (src/unnamed/part_002 lines 25–27):
`Number.isFinite(sum) && sum >= ARB_SUM_LOW && sum < ARB_SUM_THRESHOLD`.
Every rational is finite, so the first conjunct is `true` here. -/
def inRange (cfg : ArbConfig) (sum : ℚ) : Bool :=
  decide (cfg.ARB_SUM_LOW ≤ sum) && decide (sum < cfg.ARB_SUM_THRESHOLD)

/-- Kalshi snapshot (`MarketPrices`, src/unnamed/part_002 lines 125–135).
The `fetchedAt : Date` field carries no claim-relevant information and is omitted. -/
structure MarketPrices where
  ticker : String
  upAskCents : ℤ
  downAskCents : ℤ
  lastPriceCents : ℤ
deriving Repr, DecidableEq

/-- Polymarket snapshot (`PolymarketPrices`, src/src/polymarket-monitor.ts lines 98–105),
`fetchedAt` omitted as above. -/
structure PolymarketPrices where
  slug : String
  upAsk : ℚ
  downAsk : ℚ
deriving Repr, DecidableEq

/-- The dual snapshot (`DualMarketPrices`, src/unnamed/part_002 lines 309–315). -/
structure DualMarketPrices where
  kalshiTicker : String
  kalshi : Option MarketPrices
  polymarket : Option PolymarketPrices
deriving Repr, DecidableEq

/-- The executor's process-lifetime done-sets
(`upArbDoneTickers` / `downArbDoneTickers`, src/unnamed/part_002 lines 22–23). -/
structure ArbState where
  upArbDoneTickers : List String
  downArbDoneTickers : List String
deriving Repr, DecidableEq

/-- Kalshi order side: `"yes"` buys UP, `"no"` buys DOWN. -/
inductive KSide where
  | yes
  | no
deriving Repr, DecidableEq

/-- Observable side effects of the executor, in temporal order: log-sink writes,
Kalshi order submissions (`placeOrder`), Polymarket order submissions
(`placePolymarketOrder`). -/
inductive Effect where
  | logLine (msg : String)
  | kalshiOrder (ticker : String) (side : KSide) (count : ℤ) (priceCents : ℤ)
  | polyOrder (tokenId : String) (price : ℚ) (size : ℚ)
deriving Repr, DecidableEq

/-- Up/Down token ids as returned by `getTokenIdsForSlugCached`. -/
structure TokenIds where
  upTokenId : String
  downTokenId : String
deriving Repr, DecidableEq

/-- Outcomes of the external collaborators used by `checkArbAndPlaceOrders`:
whether a Kalshi `placeOrder` comes back as `{error}`, the result of
`getTokenIdsForSlugCached` (which may throw), and the result of
`placePolymarketOrder` (`none` = returned `null`, `some true` = `{orderId}`,
`some false` = `{error}`). -/
structure ArbEnv where
  kalshiOrderFails : String → KSide → Bool
  tokenIdsForSlug : String → Except String TokenIds
  polyOrderOutcome : String → Option Bool

/-- Effects of the live (non-dry-run) body of the UP leg
(src/unnamed/part_002 lines 61–77): `Promise.all` submits the Kalshi order and
resolves token ids concurrently; if token resolution throws, the whole call
rejects before the Kalshi-error check or the Polymarket submission runs, but the
Kalshi submission has already been issued. -/
def upLegLiveEffects (env : ArbEnv) (kalshiTicker slug : String)
    (kalshiContracts kalshiPriceCents : ℤ) (polyPrice polySize : ℚ) : List Effect :=
  let kalshiEff := Effect.kalshiOrder kalshiTicker KSide.yes kalshiContracts kalshiPriceCents
  match env.tokenIdsForSlug slug with
  | Except.error _ => [kalshiEff]
  | Except.ok ids =>
    let kalshiFailLog :=
      if env.kalshiOrderFails kalshiTicker KSide.yes then
        [Effect.logLine "[Arb] Kalshi order failed"] else []
    let polyEff := Effect.polyOrder ids.downTokenId polyPrice polySize
    let polyFailLog :=
      match env.polyOrderOutcome ids.downTokenId with
      | some false => [Effect.logLine "[Arb] Polymarket order failed"]
      | _ => []
    [kalshiEff] ++ kalshiFailLog ++ [polyEff] ++ polyFailLog

/-- Effects of the live body of the DOWN leg (src/unnamed/part_002 lines 93–109);
mirror image of `upLegLiveEffects`: Kalshi side `"no"`, Polymarket UP token. -/
def downLegLiveEffects (env : ArbEnv) (kalshiTicker slug : String)
    (kalshiContracts kalshiPriceCents : ℤ) (polyPrice polySize : ℚ) : List Effect :=
  let kalshiEff := Effect.kalshiOrder kalshiTicker KSide.no kalshiContracts kalshiPriceCents
  match env.tokenIdsForSlug slug with
  | Except.error _ => [kalshiEff]
  | Except.ok ids =>
    let kalshiFailLog :=
      if env.kalshiOrderFails kalshiTicker KSide.no then
        [Effect.logLine "[Arb] Kalshi order failed"] else []
    let polyEff := Effect.polyOrder ids.upTokenId polyPrice polySize
    let polyFailLog :=
      match env.polyOrderOutcome ids.upTokenId with
      | some false => [Effect.logLine "[Arb] Polymarket order failed"]
      | _ => []
    [kalshiEff] ++ kalshiFailLog ++ [polyEff] ++ polyFailLog

/-- Function `checkArbAndPlaceOrders` (src/unnamed/part_002 lines 34–111), as a pure
transition on the done-sets producing the list of side effects of one call.
Control flow mirrors the source: null guard; leg 1 (`inRange sumUp`) with
done-set check-then-add before any submission and `return` at its end; only if
`sumUp` is out of range, leg 2 (`inRange sumDown`) analogously. -/
def checkArbAndPlaceOrders (cfg : ArbConfig) (env : ArbEnv)
    (st : ArbState) (p : DualMarketPrices) : ArbState × List Effect :=
  match p.kalshi, p.polymarket with
  | none, _ => (st, [])
  | some _, none => (st, [])
  | some k, some poly =>
    let kalshiTicker := p.kalshiTicker
    let kUp : ℚ := (k.upAskCents : ℚ) / 100
    let kDown : ℚ := (k.downAskCents : ℚ) / 100
    let polyUp := poly.upAsk
    let polyDown := poly.downAsk
    let sumUp := kUp + polyDown
    let sumDown := kDown + polyUp
    let kalshiContracts : ℤ := max cfg.ARB_KALSHI_MIN (jsRound cfg.ARB_SIZE)
    let polySize : ℚ := max cfg.ARB_POLY_MIN cfg.ARB_SIZE
    if inRange cfg sumUp then
      if kalshiTicker ∈ st.upArbDoneTickers then (st, [])
      else
        let st1 : ArbState := { st with upArbDoneTickers := kalshiTicker :: st.upArbDoneTickers }
        let kalshiPriceCents : ℤ := jsRound ((kUp + cfg.ARB_PRICE_BUFFER) * 100)
        let polyPrice : ℚ := min 1 (polyDown + cfg.ARB_PRICE_BUFFER)
        let logEff := Effect.logLine "[Arb] Opportunity (UP leg)"
        if cfg.ARB_DRY_RUN then (st1, [logEff])
        else
          (st1, logEff ::
            upLegLiveEffects env kalshiTicker poly.slug kalshiContracts kalshiPriceCents
              polyPrice polySize)
    else if inRange cfg sumDown then
      if kalshiTicker ∈ st.downArbDoneTickers then (st, [])
      else
        let st1 : ArbState := { st with downArbDoneTickers := kalshiTicker :: st.downArbDoneTickers }
        let kalshiPriceCents : ℤ := jsRound ((kDown + cfg.ARB_PRICE_BUFFER) * 100)
        let polyPrice : ℚ := min 1 (polyUp + cfg.ARB_PRICE_BUFFER)
        let logEff := Effect.logLine "[Arb] Opportunity (DOWN leg)"
        if cfg.ARB_DRY_RUN then (st1, [logEff])
        else
          (st1, logEff ::
            downLegLiveEffects env kalshiTicker poly.slug kalshiContracts kalshiPriceCents
              polyPrice polySize)
    else (st, [])

/-- Repeated invocation of `checkArbAndPlaceOrders`, one call per snapshot,
threading the done-sets and concatenating the effects of all calls. -/
def runArb (cfg : ArbConfig) (env : ArbEnv) :
    ArbState → List DualMarketPrices → ArbState × List Effect
  | st, [] => (st, [])
  | st, p :: ps =>
    let r1 := checkArbAndPlaceOrders cfg env st p
    let r2 := runArb cfg env r1.1 ps
    (r2.1, r1.2 ++ r2.2)

/-- Recognizes a Kalshi order-submission effect for the given ticker and side. -/
def isKalshiOrderFor (t : String) (s : KSide) : Effect → Bool
  | Effect.kalshiOrder t2 s2 _ _ => t2 == t && s2 == s
  | _ => false

/-- Number of Kalshi order submissions for the given ticker and side in an
effect trace. Side `yes` is the UP leg, side `no` the DOWN leg. -/
def kalshiOrderCount (t : String) (s : KSide) (effs : List Effect) : ℕ :=
  (effs.filter (isKalshiOrderFor t s)).length

/-! ## Token-id cache (src/src/polymarket-monitor.ts) -/

/-- The single cache entry of `tokenIdsCache`
(src/src/polymarket-monitor.ts line 68): `{ slug, upTokenId, downTokenId }`. -/
structure TokenIdsCacheEntry where
  slug : String
  upTokenId : String
  downTokenId : String
deriving Repr, DecidableEq

/-- Result of `fetchTokenIdsForSlug` (src/src/polymarket-monitor.ts lines 36–65);
includes the `conditionId` the cache drops. -/
structure TokenIdsFull where
  upTokenId : String
  downTokenId : String
  conditionId : String
deriving Repr, DecidableEq

/-- Function `getTokenIdsForSlugCached` (src/src/polymarket-monitor.ts lines 71–79), with
the Gamma-API resolution `fetchTokenIdsForSlug` abstracted as `fetch` (it can
throw: `Except.error`). Returns the new cache, the returned or thrown value,
and the number of external resolution calls issued (0 or 1). -/
def getTokenIdsForSlugCached (fetch : String → Except String TokenIdsFull)
    (cache : Option TokenIdsCacheEntry) (slug : String) :
    Option TokenIdsCacheEntry × Except String TokenIds × ℕ :=
  match cache with
  | some c =>
    if c.slug = slug then (some c, Except.ok ⟨c.upTokenId, c.downTokenId⟩, 0)
    else
      match fetch slug with
      | Except.error e => (some c, Except.error e, 1)
      | Except.ok fresh =>
        (some ⟨slug, fresh.upTokenId, fresh.downTokenId⟩,
         Except.ok ⟨fresh.upTokenId, fresh.downTokenId⟩, 1)
  | none =>
    match fetch slug with
    | Except.error e => (none, Except.error e, 1)
    | Except.ok fresh =>
      (some ⟨slug, fresh.upTokenId, fresh.downTokenId⟩,
       Except.ok ⟨fresh.upTokenId, fresh.downTokenId⟩, 1)

/-- The cache holds an entry for `slug`. -/
def cacheHit (cache : Option TokenIdsCacheEntry) (slug : String) : Prop :=
  ∃ c, cache = some c ∧ c.slug = slug

instance (cache : Option TokenIdsCacheEntry) (slug : String) :
    Decidable (cacheHit cache slug) := by
  unfold cacheHit
  match cache with
  | none => exact .isFalse (by simp)
  | some c => exact decidable_of_iff (c.slug = slug) (by simp)

/-! ## Venue price readers (src/unnamed/part_002, src/src/polymarket-monitor.ts) -/

/-- Function `dollarsToCents` (src/unnamed/part_002 lines 157–161), with JS `parseFloat`
abstracted as `parse : String → Option ℚ` (`none` = non-finite result, i.e. NaN
or Infinity, which `Number.isFinite` rejects). `undefined`/`null` input is
`none`, and the empty string is special-cased, both yielding 0. -/
def dollarsToCents (parse : String → Option ℚ) : Option String → ℤ
  | none => 0
  | some s =>
    if s = "" then 0
    else
      match parse s with
      | some n => jsRound (n * 100)
      | none => 0

/-- The fields of `res.data.market` that `getMarketPrices` reads
(src/unnamed/part_002 lines 170–178); integer fields may be absent
(`?? fallback`), dollar-string fields may be absent too. -/
structure KalshiRawMarket where
  ticker : String
  yes_ask : Option ℤ
  no_ask : Option ℤ
  last_price : Option ℤ
  yes_ask_dollars : Option String
  no_ask_dollars : Option String
  last_price_dollars : Option String
deriving Repr, DecidableEq

/-- Kalshi venue environment: the `marketApi.getMarket` call (which may throw —
`Except.error`; and even on success `res.data.market` may be absent), and the
JS `parseFloat` used by `dollarsToCents`. -/
structure KalshiEnv where
  getMarket : String → Except String (Option KalshiRawMarket)
  parseFloat : String → Option ℚ

/-- Function `getMarketPrices` (src/unnamed/part_002 lines 166–182): any thrown error is
caught and becomes `none`; a missing `market` field becomes `none`; otherwise a
snapshot is produced, with absent integer asks falling back to
`dollarsToCents` of the dollar-string field. -/
def getMarketPrices (env : KalshiEnv) (ticker : String) : Option MarketPrices :=
  match env.getMarket ticker with
  | Except.error _ => none
  | Except.ok none => none
  | Except.ok (some m) =>
    some
      { ticker := m.ticker
        upAskCents := m.yes_ask.getD (dollarsToCents env.parseFloat m.yes_ask_dollars)
        downAskCents := m.no_ask.getD (dollarsToCents env.parseFloat m.no_ask_dollars)
        lastPriceCents := m.last_price.getD (dollarsToCents env.parseFloat m.last_price_dollars) }

/-- Polymarket venue environment: token-id resolution (`getTokenIdsForSlugCached`,
which may throw) and the per-token CLOB book read `getBestAskForToken`
(`none` = HTTP failure or empty/unparsable book). -/
structure PolyEnv where
  tokenIdsForSlug : String → Except String TokenIds
  bestAsk : String → Option ℚ

/-- Function `getPolymarketAskPrices` (src/src/polymarket-monitor.ts lines 110–128) for a
given slot slug (the source computes `slug = slugForCurrent15m market` from the
wall clock; the slug is a parameter here): the try/catch turns any thrown
resolution error into `none`, and a `null` best ask on either token gives `none`. -/
def getPolymarketAskPrices (env : PolyEnv) (slug : String) : Option PolymarketPrices :=
  match env.tokenIdsForSlug slug with
  | Except.error _ => none
  | Except.ok ids =>
    match env.bestAsk ids.upTokenId, env.bestAsk ids.downTokenId with
    | some upAsk, some downAsk => some { slug := slug, upAsk := upAsk, downAsk := downAsk }
    | _, _ => none

/-- Function `getDualPrices` (src/unnamed/part_002 lines 321–336): both venue reads run
(concurrently in the source) and their results — each already an `Option` —
are merged into one snapshot. The function is total: it always yields a
`DualMarketPrices`, never an error. -/
def getDualPrices (kenv : KalshiEnv) (penv : PolyEnv)
    (kalshiTicker slug : String) : DualMarketPrices :=
  { kalshiTicker := kalshiTicker
    kalshi := getMarketPrices kenv kalshiTicker
    polymarket := getPolymarketAskPrices penv slug }

/-! ## Poll scheduler (src/unnamed/part_002 lines 254–306) -/

/-- Function `scheduleNext` (src/unnamed/part_002 lines 258–263): given the `stopped`
flag, the interval, the tick's start time `startedAt` and the current time,
either schedules nothing (`none`, when stopped) or one timer (`some delay`).
The `Option` return mirrors the single `setTimeout(poll, delay)` call: one
invocation arms at most one timer. -/
def scheduleNext (stopped : Bool) (intervalMs startedAt now : ℤ) : Option ℤ :=
  if stopped then none
  else
    let elapsed := now - startedAt
    let delay := max 0 (intervalMs - elapsed)
    some delay

/-- Event-loop state of the poll loop: the `pollInProgress` re-entrancy flag
(src/unnamed/part_002 line 255) and the number of `getDualPrices` fetches
currently in flight. -/
structure PollLoopState where
  pollInProgress : Bool
  activeFetches : ℕ
deriving Repr, DecidableEq

/-- Events of the single-threaded JS event loop driving `poll`
(src/unnamed/part_002 lines 265–302):
* `timerFires` — a scheduled timer invokes `poll()`; the guard
  `if (pollInProgress) return` makes it a no-op if a run is still active,
  otherwise the run starts, sets the flag, and issues its fetch;
* `fetchCompletes` — the awaited dual-price fetch resolves;
* `runCompletes` — the `poll` body finishes (its `finally` clears the flag);
  a run only finishes after its own fetch has resolved, hence the
  `activeFetches = 0` guard. -/
inductive PollEvent where
  | timerFires
  | fetchCompletes
  | runCompletes
deriving Repr, DecidableEq

/-- One event-loop step of the poll loop. -/
def pollLoopStep (s : PollLoopState) : PollEvent → PollLoopState
  | PollEvent.timerFires =>
    if s.pollInProgress then s
    else { pollInProgress := true, activeFetches := s.activeFetches + 1 }
  | PollEvent.fetchCompletes => { s with activeFetches := s.activeFetches - 1 }
  | PollEvent.runCompletes =>
    if s.activeFetches = 0 then { s with pollInProgress := false } else s

/-- The poll loop state after a sequence of event-loop events. -/
def pollLoopRun (s : PollLoopState) (evs : List PollEvent) : PollLoopState :=
  evs.foldl pollLoopStep s

/-- Initial poll loop state: flag clear, nothing in flight
(`let pollInProgress = false` before the first `setTimeout(poll, 0)`). -/
def pollLoopInit : PollLoopState where
  pollInProgress := false
  activeFetches := 0

/-! ## Order price handling (src/unnamed/part_003, src/src/polymarket-order.ts) -/

/-- The price actually submitted by `placeOrder` (src/unnamed/part_003 line 89):
`Math.max(1, Math.min(99, priceCents))`, the Kalshi 1–99 cent clamp. -/
def kalshiWirePrice (priceCents : ℤ) : ℤ := max 1 (min 99 priceCents)

/-- Function `roundPriceToTickSize` (src/src/polymarket-order.ts lines 78–89):
round to the decimal places implied by the tick size. -/
def roundPriceToTickSize (price : ℚ) (tickSize : String) : ℚ :=
  let decimals : ℕ :=
    if tickSize = "0.01" then 2
    else if tickSize = "0.001" then 3
    else if tickSize = "0.0001" then 4
    else 4
  let mult : ℚ := 10 ^ decimals
  (jsRound (price * mult) : ℚ) / mult

/-! ## Concrete fixtures used to instantiate the theorems -/

/-- An environment in which token resolution succeeds with fixed token ids and
both venues' orders succeed. -/
def okEnv : ArbEnv where
  kalshiOrderFails := fun _ _ => false
  tokenIdsForSlug := fun _ => Except.ok ⟨"tokUp", "tokDown"⟩
  polyOrderOutcome := fun _ => some true

/-- An environment in which every order fails (token resolution still succeeds),
exercising the no-retry-after-failure behavior. -/
def failEnv : ArbEnv where
  kalshiOrderFails := fun _ _ => true
  tokenIdsForSlug := fun _ => Except.ok ⟨"tokUp", "tokDown"⟩
  polyOrderOutcome := fun _ => some false

/-- The §8 scenario snapshot: Kalshi UP ask 0.40, DOWN ask 0.55;
Polymarket UP ask 0.38, DOWN ask 0.48. `sumUp = 0.88` qualifies. -/
def scenarioSnap : DualMarketPrices where
  kalshiTicker := "KXBTC15M-T"
  kalshi := some { ticker := "KXBTC15M-T", upAskCents := 40, downAskCents := 55, lastPriceCents := 40 }
  polymarket := some { slug := "btc-updown-15m-1", upAsk := 19 / 50, downAsk := 12 / 25 }

/-- A snapshot whose UP-leg sum is out of range (1.20) while its DOWN-leg sum
qualifies (0.30 + 0.50 = 0.80 ∈ [0.75, 0.92)). -/
def downOnlySnap : DualMarketPrices where
  kalshiTicker := "KXBTC15M-T"
  kalshi := some { ticker := "KXBTC15M-T", upAskCents := 60, downAskCents := 30, lastPriceCents := 50 }
  polymarket := some { slug := "btc-updown-15m-1", upAsk := 1 / 2, downAsk := 3 / 5 }

/-- A snapshot with the Kalshi side absent. -/
def kalshiAbsentSnap : DualMarketPrices where
  kalshiTicker := "KXBTC15M-T"
  kalshi := none
  polymarket := some { slug := "btc-updown-15m-1", upAsk := 19 / 50, downAsk := 12 / 25 }

/-- The empty execution state (fresh process). -/
def emptyArbState : ArbState where
  upArbDoneTickers := []
  downArbDoneTickers := []

/-- A Kalshi environment whose market response has no ask fields at all
(neither integer cents nor dollar strings) and a `parseFloat` that never
yields a finite number. -/
def missingAsksKalshiEnv : KalshiEnv where
  getMarket := fun t =>
    Except.ok (some
      { ticker := t, yes_ask := none, no_ask := none, last_price := none,
        yes_ask_dollars := none, no_ask_dollars := none, last_price_dollars := none })
  parseFloat := fun _ => none

/-- A Kalshi environment whose `getMarket` call throws. -/
def throwingKalshiEnv : KalshiEnv where
  getMarket := fun _ => Except.error "network"
  parseFloat := fun _ => none

/-- A Kalshi environment that answers with fixed integer asks. -/
def okKalshiEnv : KalshiEnv where
  getMarket := fun t =>
    Except.ok (some
      { ticker := t, yes_ask := some 40, no_ask := some 55, last_price := some 40,
        yes_ask_dollars := none, no_ask_dollars := none, last_price_dollars := none })
  parseFloat := fun _ => none

/-- A Polymarket environment whose token resolution throws. -/
def throwingPolyEnv : PolyEnv where
  tokenIdsForSlug := fun _ => Except.error "Gamma API 500"
  bestAsk := fun _ => none

/-- A Polymarket environment with working resolution and liquid books. -/
def okPolyEnv : PolyEnv where
  tokenIdsForSlug := fun _ => Except.ok ⟨"tokUp", "tokDown"⟩
  bestAsk := fun tok => if tok = "tokUp" then some (19 / 50) else some (12 / 25)

/-- A resident cache entry for slot slug `"slugA"`. -/
def cachedEntryA : TokenIdsCacheEntry where
  slug := "slugA"
  upTokenId := "uA"
  downTokenId := "dA"

/-- A Gamma-API resolution that always fails. -/
def errFetch : String → Except String TokenIdsFull :=
  fun _ => Except.error "Gamma API 500"

/-- A Gamma-API resolution that always succeeds with fresh token ids. -/
def okFetchB : String → Except String TokenIdsFull :=
  fun _ => Except.ok ⟨"uB", "dB", "cB"⟩

/-- Invariant of the poll loop's event-loop model: at most one fetch in flight,
and none at all unless a `poll` run is active. -/
def pollLoopInv (s : PollLoopState) : Prop :=
  s.activeFetches ≤ 1 ∧ (s.pollInProgress = false → s.activeFetches = 0)

/-! ## Helper lemmas -/

theorem kalshiOrderCount_append (t : String) (s : KSide) (a b : List Effect) :
    kalshiOrderCount t s (a ++ b) = kalshiOrderCount t s a + kalshiOrderCount t s b := by
  simp [kalshiOrderCount, List.filter_append]

theorem kalshiOrderCount_nil (t : String) (s : KSide) : kalshiOrderCount t s [] = 0 := rfl

theorem kalshiOrderCount_cons_log (t : String) (s : KSide) (msg : String)
    (rest : List Effect) :
    kalshiOrderCount t s (Effect.logLine msg :: rest) = kalshiOrderCount t s rest := by
  simp [kalshiOrderCount, List.filter_cons, isKalshiOrderFor]

theorem kalshiOrderCount_cons_poly (t : String) (s : KSide) (tok : String)
    (price size : ℚ) (rest : List Effect) :
    kalshiOrderCount t s (Effect.polyOrder tok price size :: rest) =
      kalshiOrderCount t s rest := by
  simp [kalshiOrderCount, List.filter_cons, isKalshiOrderFor]

theorem kalshiOrderCount_cons_kalshi (t : String) (s : KSide) (kt : String)
    (ks : KSide) (c pc : ℤ) (rest : List Effect) :
    kalshiOrderCount t s (Effect.kalshiOrder kt ks c pc :: rest) =
      (if kt = t ∧ ks = s then 1 else 0) + kalshiOrderCount t s rest := by
  by_cases h1 : kt = t
  · by_cases h2 : ks = s
    · simp [kalshiOrderCount, List.filter_cons, isKalshiOrderFor, h1, h2, Nat.add_comm]
    · simp [kalshiOrderCount, List.filter_cons, isKalshiOrderFor, h1, h2]
  · simp [kalshiOrderCount, List.filter_cons, isKalshiOrderFor, h1]

theorem kalshiOrderCount_upLegLiveEffects (env : ArbEnv) (kt slug : String)
    (c pc : ℤ) (pp psz : ℚ) (t : String) (s : KSide) :
    kalshiOrderCount t s (upLegLiveEffects env kt slug c pc pp psz) =
      if kt = t ∧ KSide.yes = s then 1 else 0 := by
  unfold upLegLiveEffects
  cases henv : env.tokenIdsForSlug slug with
  | error e =>
    simp [kalshiOrderCount_cons_kalshi, kalshiOrderCount_nil, eq_comm]
  | ok ids =>
    cases hf : env.kalshiOrderFails kt KSide.yes <;>
      [skip; skip] <;>
      cases hp : env.polyOrderOutcome ids.downTokenId with
      | none =>
        simp [hp, kalshiOrderCount_append, kalshiOrderCount_cons_kalshi,
          kalshiOrderCount_cons_poly, kalshiOrderCount_cons_log, kalshiOrderCount_nil, eq_comm]
      | some b =>
        cases b <;>
          simp [hp, kalshiOrderCount_append, kalshiOrderCount_cons_kalshi,
            kalshiOrderCount_cons_poly, kalshiOrderCount_cons_log, kalshiOrderCount_nil, eq_comm]

theorem kalshiOrderCount_downLegLiveEffects (env : ArbEnv) (kt slug : String)
    (c pc : ℤ) (pp psz : ℚ) (t : String) (s : KSide) :
    kalshiOrderCount t s (downLegLiveEffects env kt slug c pc pp psz) =
      if kt = t ∧ KSide.no = s then 1 else 0 := by
  unfold downLegLiveEffects
  cases henv : env.tokenIdsForSlug slug with
  | error e =>
    simp [kalshiOrderCount_cons_kalshi, kalshiOrderCount_nil, eq_comm]
  | ok ids =>
    cases hf : env.kalshiOrderFails kt KSide.no <;>
      [skip; skip] <;>
      cases hp : env.polyOrderOutcome ids.upTokenId with
      | none =>
        simp [hp, kalshiOrderCount_append, kalshiOrderCount_cons_kalshi,
          kalshiOrderCount_cons_poly, kalshiOrderCount_cons_log, kalshiOrderCount_nil, eq_comm]
      | some b =>
        cases b <;>
          simp [hp, kalshiOrderCount_append, kalshiOrderCount_cons_kalshi,
            kalshiOrderCount_cons_poly, kalshiOrderCount_cons_log, kalshiOrderCount_nil, eq_comm]

/-- Claim C2: a sum qualifies iff it lies in the half-open band
`[ARB_SUM_LOW, ARB_SUM_THRESHOLD)`; the upper bound itself never fires and,
whenever the band is nonempty, the lower bound fires. -/
theorem inRange_band (cfg : ArbConfig) (s : ℚ) :
    (inRange cfg s = true ↔ cfg.ARB_SUM_LOW ≤ s ∧ s < cfg.ARB_SUM_THRESHOLD) ∧
    inRange cfg cfg.ARB_SUM_THRESHOLD = false ∧
    (cfg.ARB_SUM_LOW < cfg.ARB_SUM_THRESHOLD → inRange cfg cfg.ARB_SUM_LOW = true) := by
  refine ⟨?_, ?_, ?_⟩
  · simp [inRange]
  · simp [inRange]
  · intro h
    simp [inRange, le_refl, h]

/-- Witness for C2 at the default band `[0.75, 0.92)`. -/
theorem inRange_band_witness :
    inRange defaultArbConfig defaultArbConfig.ARB_SUM_LOW = true ∧
    inRange defaultArbConfig defaultArbConfig.ARB_SUM_THRESHOLD = false :=
  ⟨(inRange_band defaultArbConfig 0).2.2 (by norm_num [defaultArbConfig]),
   (inRange_band defaultArbConfig 0).2.1⟩

/-- Claim C4: if either venue's snapshot is absent, `checkArbAndPlaceOrders`
returns immediately: the done-sets are untouched and no effect (no log line,
no order submission) is produced. -/
theorem checkArb_absent_noop (cfg : ArbConfig) (env : ArbEnv) (st : ArbState)
    (p : DualMarketPrices) (h : p.kalshi = none ∨ p.polymarket = none) :
    checkArbAndPlaceOrders cfg env st p = (st, []) := by
  obtain ⟨t, k, po⟩ := p
  rcases h with h | h
  · simp only at h
    subst h
    rfl
  · simp only at h
    subst h
    cases k <;> rfl

/-- Witness for C4: a snapshot with the Kalshi side absent is a no-op. -/
theorem checkArb_absent_noop_witness :
    checkArbAndPlaceOrders defaultArbConfig okEnv emptyArbState kalshiAbsentSnap =
      (emptyArbState, []) :=
  checkArb_absent_noop defaultArbConfig okEnv emptyArbState kalshiAbsentSnap (Or.inl rfl)

theorem pollLoopStep_inv (s : PollLoopState) (ev : PollEvent)
    (h : pollLoopInv s) : pollLoopInv (pollLoopStep s ev) := by
  obtain ⟨h1, h2⟩ := h
  cases ev with
  | timerFires =>
    unfold pollLoopStep
    by_cases hp : s.pollInProgress = true
    · rw [if_pos hp]
      exact ⟨h1, h2⟩
    · rw [if_neg hp]
      have h0 : s.activeFetches = 0 := h2 (by simpa using hp)
      exact ⟨by simp [h0], fun hf => by simp at hf⟩
  | fetchCompletes =>
    exact ⟨by simp [pollLoopStep]; omega, fun hf => by simp [pollLoopStep]; omega⟩
  | runCompletes =>
    unfold pollLoopStep
    by_cases hz : s.activeFetches = 0
    · rw [if_pos hz]
      exact ⟨by simp [hz], fun _ => by simp [hz]⟩
    · rw [if_neg hz]
      exact ⟨h1, h2⟩

theorem pollLoopRun_inv (evs : List PollEvent) :
    ∀ s : PollLoopState, pollLoopInv s → pollLoopInv (pollLoopRun s evs) := by
  induction evs with
  | nil => intro s h; simpa [pollLoopRun] using h
  | cons ev evs ih =>
    intro s h
    have h1 := pollLoopStep_inv s ev h
    simpa [pollLoopRun, List.foldl_cons] using ih (pollLoopStep s ev) h1

/-- Claim C5: in the poll loop's event-loop model, starting from the initial
state, after any sequence of timer firings, fetch completions and run
completions, at most one dual-price fetch is ever in flight: the
`pollInProgress` guard skips (does not queue) any tick that fires while the
previous tick's fetch-plus-callback is still running. -/
theorem pollLoop_no_overlapping_fetch (evs : List PollEvent) :
    (pollLoopRun pollLoopInit evs).activeFetches ≤ 1 :=
  (pollLoopRun_inv evs pollLoopInit ⟨by simp [pollLoopInit], fun _ => rfl⟩).1

/-- Claim C6: whenever `scheduleNext` runs on a non-stopped loop it arms exactly
one timer, with delay `max 0 (intervalMs − elapsed)` where `elapsed` is measured
from the start of the current tick; the delay is zero (never negative) whenever
the tick took at least the interval, and the next tick's start time is
`startedAt + max elapsed intervalMs`, the self-pacing guarantee. -/
theorem scheduleNext_self_pacing (intervalMs startedAt now d : ℤ)
    (h : scheduleNext false intervalMs startedAt now = some d) :
    d = max 0 (intervalMs - (now - startedAt)) ∧
    0 ≤ d ∧
    (intervalMs ≤ now - startedAt → d = 0) ∧
    now + d = startedAt + max (now - startedAt) intervalMs := by
  simp only [scheduleNext, Bool.false_eq_true, if_false, Option.some_inj] at h
  subst h
  refine ⟨rfl, le_max_left _ _, ?_, ?_⟩
  · intro hle
    have : intervalMs - (now - startedAt) ≤ 0 := by omega
    simp [max_eq_left this]
  · rcases le_or_lt intervalMs (now - startedAt) with h1 | h1
    · have hmax1 : max (0 : ℤ) (intervalMs - (now - startedAt)) = 0 :=
        max_eq_left (by omega)
      have hmax2 : max (now - startedAt) intervalMs = now - startedAt :=
        max_eq_left h1
      rw [hmax1, hmax2]; omega
    · have hmax1 : max (0 : ℤ) (intervalMs - (now - startedAt)) =
          intervalMs - (now - startedAt) := max_eq_right (by omega)
      have hmax2 : max (now - startedAt) intervalMs = intervalMs :=
        max_eq_right (by omega)
      rw [hmax1, hmax2]; omega

/-- Witness for C6: interval 200 ms, tick started at 1000, finishing at 1350
(slow tick) — delay 0, next start `1000 + max 350 200 = 1350`. -/
theorem scheduleNext_self_pacing_witness :
    (0 : ℤ) = max 0 (200 - (1350 - 1000)) ∧
    (0 : ℤ) ≤ 0 ∧
    ((200 : ℤ) ≤ 1350 - 1000 → (0 : ℤ) = 0) ∧
    (1350 : ℤ) + 0 = 1000 + max (1350 - 1000) 200 := by
  exact scheduleNext_self_pacing 200 1000 1350 0 (by norm_num [scheduleNext])

/-- Claim C7: `getTokenIdsForSlugCached` on a hit (same slug as the cached
entry) returns the cached ids with zero external resolution calls and an
unchanged cache; on a miss it issues exactly one resolution call, and either
the call fails — the error propagates, the cache (previous entry included) is
left unchanged — or it succeeds and its result unconditionally replaces the
previous entry (capacity one). -/
theorem tokenIdsCache_policy (fetch : String → Except String TokenIdsFull)
    (cache : Option TokenIdsCacheEntry) (slug : String) :
    (∀ c, cache = some c → c.slug = slug →
      getTokenIdsForSlugCached fetch cache slug =
        (some c, Except.ok ⟨c.upTokenId, c.downTokenId⟩, 0)) ∧
    (¬ cacheHit cache slug →
      (∀ e, fetch slug = Except.error e →
        getTokenIdsForSlugCached fetch cache slug = (cache, Except.error e, 1)) ∧
      (∀ ids, fetch slug = Except.ok ids →
        getTokenIdsForSlugCached fetch cache slug =
          (some ⟨slug, ids.upTokenId, ids.downTokenId⟩,
           Except.ok ⟨ids.upTokenId, ids.downTokenId⟩, 1))) := by
  constructor
  · intro c hc hs
    subst hc
    simp [getTokenIdsForSlugCached, hs]
  · intro hmiss
    cases cache with
    | none =>
      exact ⟨fun e he => by simp [getTokenIdsForSlugCached, he],
             fun ids hids => by simp [getTokenIdsForSlugCached, hids]⟩
    | some c =>
      have hne : ¬ c.slug = slug := fun hs => hmiss ⟨c, rfl, hs⟩
      exact ⟨fun e he => by simp [getTokenIdsForSlugCached, hne, he],
             fun ids hids => by simp [getTokenIdsForSlugCached, hne, hids]⟩

/-- Witness for C7: a hit with a failing backend still answers from the cache
with no call; a miss on a failing backend propagates the error and keeps the
old entry. -/
theorem tokenIdsCache_policy_witness :
    getTokenIdsForSlugCached errFetch (some cachedEntryA) "slugA" =
      (some cachedEntryA, Except.ok ⟨"uA", "dA"⟩, 0) ∧
    getTokenIdsForSlugCached errFetch (some cachedEntryA) "slugB" =
      (some cachedEntryA, Except.error "Gamma API 500", 1) :=
  ⟨(tokenIdsCache_policy errFetch (some cachedEntryA) "slugA").1 cachedEntryA rfl rfl,
   ((tokenIdsCache_policy errFetch (some cachedEntryA) "slugB").2
      (by simp [cacheHit, cachedEntryA])).1 "Gamma API 500" rfl⟩

/-- Claim C8: every tick's dual fetch yields a snapshot with the requested
ticker; a thrown Kalshi read leaves only that field `none` while the
Polymarket field is exactly what the Polymarket reader alone yields, and a
thrown Polymarket token resolution leaves only that field `none` while the
Kalshi field is exactly what the Kalshi reader alone yields — a failure on one
venue never hides the other venue's price and never aborts the tick. -/
theorem getDualPrices_partial_failure (kenv : KalshiEnv) (penv : PolyEnv)
    (t slug : String) :
    (getDualPrices kenv penv t slug).kalshiTicker = t ∧
    (∀ e, kenv.getMarket t = Except.error e →
      (getDualPrices kenv penv t slug).kalshi = none ∧
      (getDualPrices kenv penv t slug).polymarket = getPolymarketAskPrices penv slug) ∧
    (∀ e, penv.tokenIdsForSlug slug = Except.error e →
      (getDualPrices kenv penv t slug).polymarket = none ∧
      (getDualPrices kenv penv t slug).kalshi = getMarketPrices kenv t) := by
  refine ⟨rfl, ?_, ?_⟩
  · intro e he
    exact ⟨by simp [getDualPrices, getMarketPrices, he], rfl⟩
  · intro e he
    exact ⟨by simp [getDualPrices, getPolymarketAskPrices, he], rfl⟩

/-- Witness for C8: with a throwing Kalshi API and a healthy Polymarket side,
the snapshot still carries the Polymarket prices. -/
theorem getDualPrices_partial_failure_witness :
    (getDualPrices throwingKalshiEnv okPolyEnv "KXBTC15M-T" "btc-updown-15m-1").kalshi = none ∧
    (getDualPrices throwingKalshiEnv okPolyEnv "KXBTC15M-T" "btc-updown-15m-1").polymarket =
      getPolymarketAskPrices okPolyEnv "btc-updown-15m-1" :=
  (getDualPrices_partial_failure throwingKalshiEnv okPolyEnv "KXBTC15M-T"
    "btc-updown-15m-1").2.1 "network" rfl

/-- Claim C10: `dollarsToCents` maps an absent, empty, or non-finite-parsing
dollar string to 0; hence a Kalshi market response whose ask fields are all
missing or unparseable still yields a present snapshot whose ask is 0 cents,
and the resulting sum `0 + polyDown` is kept from firing exactly by the
`ARB_SUM_LOW` lower bound of the band, not by the absent-snapshot guard. -/
theorem dollarsToCents_zero_flows (parse : String → Option ℚ) :
    dollarsToCents parse none = 0 ∧
    dollarsToCents parse (some "") = 0 ∧
    (∀ s, parse s = none → dollarsToCents parse (some s) = 0) ∧
    (∀ (kenv : KalshiEnv) (t : String) (m : KalshiRawMarket),
      kenv.getMarket t = Except.ok (some m) →
      m.yes_ask = none →
      (m.yes_ask_dollars = none ∨
        ∃ s, m.yes_ask_dollars = some s ∧ (s = "" ∨ kenv.parseFloat s = none)) →
      ∃ mp, getMarketPrices kenv t = some mp ∧ mp.upAskCents = 0) ∧
    (∀ (cfg : ArbConfig) (d : ℚ),
      inRange cfg ((0 : ℚ) / 100 + d) = true ↔
        cfg.ARB_SUM_LOW ≤ d ∧ d < cfg.ARB_SUM_THRESHOLD) := by
  refine ⟨rfl, rfl, ?_, ?_, ?_⟩
  · intro s hs
    by_cases he : s = ""
    · simp [dollarsToCents, he]
    · simp [dollarsToCents, he, hs]
  · intro kenv t m hm hyes hdollars
    simp only [getMarketPrices, hm]
    refine ⟨_, rfl, ?_⟩
    rcases hdollars with hd | ⟨s, hd, he | hp⟩
    · simp [hyes, hd, dollarsToCents]
    · simp [hyes, hd, he, dollarsToCents]
    · by_cases he : s = ""
      · simp [hyes, hd, he, dollarsToCents]
      · simp [hyes, hd, he, hp, dollarsToCents]
  · intro cfg d
    simp [inRange]

/-- Witness for C10: a response with no ask fields at all and a never-finite
`parseFloat` still yields a present snapshot with a 0-cent UP ask, and with the
default band the sum `0 + 0.48` is rejected by the lower bound. -/
theorem dollarsToCents_zero_flows_witness :
    dollarsToCents (fun _ => none) (some "abc") = 0 ∧
    (∃ mp, getMarketPrices missingAsksKalshiEnv "KXBTC15M-T" = some mp ∧
      mp.upAskCents = 0) ∧
    inRange defaultArbConfig ((0 : ℚ) / 100 + 12 / 25) = false := by
  refine ⟨(dollarsToCents_zero_flows (fun _ => none)).2.2.1 "abc" rfl,
    (dollarsToCents_zero_flows (fun _ => none)).2.2.2.1 missingAsksKalshiEnv "KXBTC15M-T"
      _ rfl rfl (Or.inl rfl), ?_⟩
  have h := ((dollarsToCents_zero_flows (fun _ => none)).2.2.2.2 defaultArbConfig
    (12 / 25)).not
  rw [Bool.not_eq_true] at h
  exact h.mpr (by norm_num [defaultArbConfig])

/-- Every call to `checkArbAndPlaceOrders` is one of: a no-op; an UP-leg firing
(kalshi ticker was not in the UP done-set, is prepended to it, the DOWN set is
untouched, and the trace holds Kalshi orders only for (ticker, yes)); or a
DOWN-leg firing, symmetrically. -/
theorem checkArb_shape (cfg : ArbConfig) (env : ArbEnv) (st : ArbState)
    (p : DualMarketPrices) :
    checkArbAndPlaceOrders cfg env st p = (st, []) ∨
    (p.kalshiTicker ∉ st.upArbDoneTickers ∧
     (checkArbAndPlaceOrders cfg env st p).1 =
       { st with upArbDoneTickers := p.kalshiTicker :: st.upArbDoneTickers } ∧
     (∀ t s, kalshiOrderCount t s (checkArbAndPlaceOrders cfg env st p).2 ≤
        if p.kalshiTicker = t ∧ KSide.yes = s then 1 else 0)) ∨
    (p.kalshiTicker ∉ st.downArbDoneTickers ∧
     (checkArbAndPlaceOrders cfg env st p).1 =
       { st with downArbDoneTickers := p.kalshiTicker :: st.downArbDoneTickers } ∧
     (∀ t s, kalshiOrderCount t s (checkArbAndPlaceOrders cfg env st p).2 ≤
        if p.kalshiTicker = t ∧ KSide.no = s then 1 else 0)) := by
  obtain ⟨kt, k, po⟩ := p
  cases k with
  | none => exact Or.inl rfl
  | some km =>
    cases po with
    | none => exact Or.inl rfl
    | some pm =>
      show (checkArbAndPlaceOrders cfg env st ⟨kt, some km, some pm⟩ = _) ∨ _ ∨ _
      unfold checkArbAndPlaceOrders
      dsimp only
      by_cases hup : inRange cfg ((km.upAskCents : ℚ) / 100 + pm.downAsk) = true
      · rw [if_pos hup]
        by_cases hmem : kt ∈ st.upArbDoneTickers
        · rw [if_pos hmem]
          exact Or.inl rfl
        · rw [if_neg hmem]
          refine Or.inr (Or.inl ⟨hmem, ?_, ?_⟩)
          · cases hd : cfg.ARB_DRY_RUN <;> simp [hd]
          · intro t s
            cases hd : cfg.ARB_DRY_RUN
            · simp only [hd, Bool.false_eq_true, if_false]
              rw [kalshiOrderCount_cons_log, kalshiOrderCount_upLegLiveEffects]
            · simp only [hd, if_true]
              rw [kalshiOrderCount_cons_log, kalshiOrderCount_nil]
              exact Nat.zero_le _
      · rw [if_neg hup]
        by_cases hdn : inRange cfg ((km.downAskCents : ℚ) / 100 + pm.upAsk) = true
        · rw [if_pos hdn]
          by_cases hmem : kt ∈ st.downArbDoneTickers
          · rw [if_pos hmem]
            exact Or.inl rfl
          · rw [if_neg hmem]
            refine Or.inr (Or.inr ⟨hmem, ?_, ?_⟩)
            · cases hd : cfg.ARB_DRY_RUN <;> simp [hd]
            · intro t s
              cases hd : cfg.ARB_DRY_RUN
              · simp only [hd, Bool.false_eq_true, if_false]
                rw [kalshiOrderCount_cons_log, kalshiOrderCount_downLegLiveEffects]
              · simp only [hd, if_true]
                rw [kalshiOrderCount_cons_log, kalshiOrderCount_nil]
                exact Nat.zero_le _
        · rw [if_neg hdn]
          exact Or.inl rfl

theorem checkArb_up_done (cfg : ArbConfig) (env : ArbEnv) (st : ArbState)
    (p : DualMarketPrices) (t : String) (h : t ∈ st.upArbDoneTickers) :
    kalshiOrderCount t KSide.yes (checkArbAndPlaceOrders cfg env st p).2 = 0 ∧
    t ∈ (checkArbAndPlaceOrders cfg env st p).1.upArbDoneTickers := by
  rcases checkArb_shape cfg env st p with hs | ⟨hmem, hst, hcnt⟩ | ⟨hmem, hst, hcnt⟩
  · rw [hs]
    exact ⟨rfl, h⟩
  · refine ⟨?_, by rw [hst]; exact List.mem_cons_of_mem _ h⟩
    have := hcnt t KSide.yes
    have hne : ¬(p.kalshiTicker = t ∧ KSide.yes = KSide.yes) := by
      rintro ⟨rfl, -⟩
      exact hmem h
    rw [if_neg hne] at this
    omega
  · refine ⟨?_, by rw [hst]; exact h⟩
    have := hcnt t KSide.yes
    have hne : ¬(p.kalshiTicker = t ∧ KSide.no = KSide.yes) := by
      rintro ⟨-, hcontra⟩
      exact KSide.noConfusion hcontra
    rw [if_neg hne] at this
    omega

theorem checkArb_down_done (cfg : ArbConfig) (env : ArbEnv) (st : ArbState)
    (p : DualMarketPrices) (t : String) (h : t ∈ st.downArbDoneTickers) :
    kalshiOrderCount t KSide.no (checkArbAndPlaceOrders cfg env st p).2 = 0 ∧
    t ∈ (checkArbAndPlaceOrders cfg env st p).1.downArbDoneTickers := by
  rcases checkArb_shape cfg env st p with hs | ⟨hmem, hst, hcnt⟩ | ⟨hmem, hst, hcnt⟩
  · rw [hs]
    exact ⟨rfl, h⟩
  · refine ⟨?_, by rw [hst]; exact h⟩
    have := hcnt t KSide.no
    have hne : ¬(p.kalshiTicker = t ∧ KSide.yes = KSide.no) := by
      rintro ⟨-, hcontra⟩
      exact KSide.noConfusion hcontra
    rw [if_neg hne] at this
    omega
  · refine ⟨?_, by rw [hst]; exact List.mem_cons_of_mem _ h⟩
    have := hcnt t KSide.no
    have hne : ¬(p.kalshiTicker = t ∧ KSide.no = KSide.no) := by
      rintro ⟨rfl, -⟩
      exact hmem h
    rw [if_neg hne] at this
    omega

theorem checkArb_up_step (cfg : ArbConfig) (env : ArbEnv) (st : ArbState)
    (p : DualMarketPrices) (t : String) :
    kalshiOrderCount t KSide.yes (checkArbAndPlaceOrders cfg env st p).2 ≤ 1 ∧
    (1 ≤ kalshiOrderCount t KSide.yes (checkArbAndPlaceOrders cfg env st p).2 →
      t ∈ (checkArbAndPlaceOrders cfg env st p).1.upArbDoneTickers) := by
  rcases checkArb_shape cfg env st p with hs | ⟨hmem, hst, hcnt⟩ | ⟨hmem, hst, hcnt⟩
  · rw [hs]
    exact ⟨Nat.zero_le _, fun h => absurd h (by simp [kalshiOrderCount_nil])⟩
  · have hc := hcnt t KSide.yes
    constructor
    · split at hc
      · omega
      · omega
    · intro h1
      rw [hst]
      by_cases he : p.kalshiTicker = t ∧ KSide.yes = KSide.yes
      · rw [he.1]
        exact List.mem_cons_self _ _
      · rw [if_neg he] at hc
        omega
  · have hc := hcnt t KSide.yes
    have hne : ¬(p.kalshiTicker = t ∧ KSide.no = KSide.yes) := by
      rintro ⟨-, hcontra⟩
      exact KSide.noConfusion hcontra
    rw [if_neg hne] at hc
    exact ⟨by omega, fun h1 => absurd h1 (by omega)⟩

theorem checkArb_down_step (cfg : ArbConfig) (env : ArbEnv) (st : ArbState)
    (p : DualMarketPrices) (t : String) :
    kalshiOrderCount t KSide.no (checkArbAndPlaceOrders cfg env st p).2 ≤ 1 ∧
    (1 ≤ kalshiOrderCount t KSide.no (checkArbAndPlaceOrders cfg env st p).2 →
      t ∈ (checkArbAndPlaceOrders cfg env st p).1.downArbDoneTickers) := by
  rcases checkArb_shape cfg env st p with hs | ⟨hmem, hst, hcnt⟩ | ⟨hmem, hst, hcnt⟩
  · rw [hs]
    exact ⟨Nat.zero_le _, fun h => absurd h (by simp [kalshiOrderCount_nil])⟩
  · have hc := hcnt t KSide.no
    have hne : ¬(p.kalshiTicker = t ∧ KSide.yes = KSide.no) := by
      rintro ⟨-, hcontra⟩
      exact KSide.noConfusion hcontra
    rw [if_neg hne] at hc
    exact ⟨by omega, fun h1 => absurd h1 (by omega)⟩
  · have hc := hcnt t KSide.no
    constructor
    · split at hc
      · omega
      · omega
    · intro h1
      rw [hst]
      by_cases he : p.kalshiTicker = t ∧ KSide.no = KSide.no
      · rw [he.1]
        exact List.mem_cons_self _ _
      · rw [if_neg he] at hc
        omega

theorem runArb_up_done (cfg : ArbConfig) (env : ArbEnv) (t : String)
    (ps : List DualMarketPrices) :
    ∀ st : ArbState, t ∈ st.upArbDoneTickers →
      kalshiOrderCount t KSide.yes (runArb cfg env st ps).2 = 0 ∧
      t ∈ (runArb cfg env st ps).1.upArbDoneTickers := by
  induction ps with
  | nil => exact fun st h => ⟨rfl, h⟩
  | cons p ps ih =>
    intro st h
    have h1 := checkArb_up_done cfg env st p t h
    have h2 := ih (checkArbAndPlaceOrders cfg env st p).1 h1.2
    simp only [runArb, kalshiOrderCount_append]
    exact ⟨by rw [h1.1, h2.1], h2.2⟩

theorem runArb_down_done (cfg : ArbConfig) (env : ArbEnv) (t : String)
    (ps : List DualMarketPrices) :
    ∀ st : ArbState, t ∈ st.downArbDoneTickers →
      kalshiOrderCount t KSide.no (runArb cfg env st ps).2 = 0 ∧
      t ∈ (runArb cfg env st ps).1.downArbDoneTickers := by
  induction ps with
  | nil => exact fun st h => ⟨rfl, h⟩
  | cons p ps ih =>
    intro st h
    have h1 := checkArb_down_done cfg env st p t h
    have h2 := ih (checkArbAndPlaceOrders cfg env st p).1 h1.2
    simp only [runArb, kalshiOrderCount_append]
    exact ⟨by rw [h1.1, h2.1], h2.2⟩

theorem runArb_up_once (cfg : ArbConfig) (env : ArbEnv) (t : String)
    (ps : List DualMarketPrices) :
    ∀ st : ArbState, t ∉ st.upArbDoneTickers →
      kalshiOrderCount t KSide.yes (runArb cfg env st ps).2 ≤ 1 ∧
      (1 ≤ kalshiOrderCount t KSide.yes (runArb cfg env st ps).2 →
        t ∈ (runArb cfg env st ps).1.upArbDoneTickers) := by
  induction ps with
  | nil =>
    exact fun st h => ⟨Nat.zero_le _, fun h1 => absurd h1 (by simp [runArb, kalshiOrderCount_nil])⟩
  | cons p ps ih =>
    intro st h
    have hstep := checkArb_up_step cfg env st p t
    simp only [runArb, kalshiOrderCount_append]
    by_cases hmem : t ∈ (checkArbAndPlaceOrders cfg env st p).1.upArbDoneTickers
    · have hrest := runArb_up_done cfg env t ps _ hmem
      exact ⟨by omega, fun _ => hrest.2⟩
    · have hzero : kalshiOrderCount t KSide.yes (checkArbAndPlaceOrders cfg env st p).2 = 0 := by
        by_contra hne
        exact hmem (hstep.2 (by omega))
      have hrest := ih (checkArbAndPlaceOrders cfg env st p).1 hmem
      exact ⟨by omega, fun h1 => hrest.2 (by omega)⟩

theorem runArb_down_once (cfg : ArbConfig) (env : ArbEnv) (t : String)
    (ps : List DualMarketPrices) :
    ∀ st : ArbState, t ∉ st.downArbDoneTickers →
      kalshiOrderCount t KSide.no (runArb cfg env st ps).2 ≤ 1 ∧
      (1 ≤ kalshiOrderCount t KSide.no (runArb cfg env st ps).2 →
        t ∈ (runArb cfg env st ps).1.downArbDoneTickers) := by
  induction ps with
  | nil =>
    exact fun st h => ⟨Nat.zero_le _, fun h1 => absurd h1 (by simp [runArb, kalshiOrderCount_nil])⟩
  | cons p ps ih =>
    intro st h
    have hstep := checkArb_down_step cfg env st p t
    simp only [runArb, kalshiOrderCount_append]
    by_cases hmem : t ∈ (checkArbAndPlaceOrders cfg env st p).1.downArbDoneTickers
    · have hrest := runArb_down_done cfg env t ps _ hmem
      exact ⟨by omega, fun _ => hrest.2⟩
    · have hzero : kalshiOrderCount t KSide.no (checkArbAndPlaceOrders cfg env st p).2 = 0 := by
        by_contra hne
        exact hmem (hstep.2 (by omega))
      have hrest := ih (checkArbAndPlaceOrders cfg env st p).1 hmem
      exact ⟨by omega, fun h1 => hrest.2 (by omega)⟩

/-- Claim C1: over any sequence of snapshots — qualifying or not, with orders
succeeding or failing in any pattern (`env` is arbitrary, so in particular when
every order submission fails) — a ticker that starts outside the done-sets has
at most one Kalshi UP-leg submission and at most one DOWN-leg submission in the
whole trace, and once a leg has submitted, the ticker is in that leg's done-set
at the end (the entry added before the order is never removed, so a failed leg
is never retried). -/
theorem arb_at_most_once_per_leg (cfg : ArbConfig) (env : ArbEnv) (st : ArbState)
    (ps : List DualMarketPrices) (t : String)
    (h1 : t ∉ st.upArbDoneTickers) (h2 : t ∉ st.downArbDoneTickers) :
    kalshiOrderCount t KSide.yes (runArb cfg env st ps).2 ≤ 1 ∧
    kalshiOrderCount t KSide.no (runArb cfg env st ps).2 ≤ 1 ∧
    (1 ≤ kalshiOrderCount t KSide.yes (runArb cfg env st ps).2 →
      t ∈ (runArb cfg env st ps).1.upArbDoneTickers) ∧
    (1 ≤ kalshiOrderCount t KSide.no (runArb cfg env st ps).2 →
      t ∈ (runArb cfg env st ps).1.downArbDoneTickers) := by
  have hu := runArb_up_once cfg env t ps st h1
  have hd := runArb_down_once cfg env t ps st h2
  exact ⟨hu.1, hd.1, hu.2, hd.2⟩

/-- Witness for C1: two consecutive identical qualifying snapshots, every order
failing — still exactly at most one UP submission for the ticker, which ends up
recorded in the UP done-set. -/
theorem arb_at_most_once_per_leg_witness :
    kalshiOrderCount "KXBTC15M-T" KSide.yes
      (runArb defaultArbConfig failEnv emptyArbState [scenarioSnap, scenarioSnap]).2 ≤ 1 ∧
    kalshiOrderCount "KXBTC15M-T" KSide.no
      (runArb defaultArbConfig failEnv emptyArbState [scenarioSnap, scenarioSnap]).2 ≤ 1 ∧
    (1 ≤ kalshiOrderCount "KXBTC15M-T" KSide.yes
        (runArb defaultArbConfig failEnv emptyArbState [scenarioSnap, scenarioSnap]).2 →
      "KXBTC15M-T" ∈ (runArb defaultArbConfig failEnv emptyArbState
        [scenarioSnap, scenarioSnap]).1.upArbDoneTickers) ∧
    (1 ≤ kalshiOrderCount "KXBTC15M-T" KSide.no
        (runArb defaultArbConfig failEnv emptyArbState [scenarioSnap, scenarioSnap]).2 →
      "KXBTC15M-T" ∈ (runArb defaultArbConfig failEnv emptyArbState
        [scenarioSnap, scenarioSnap]).1.downArbDoneTickers) :=
  arb_at_most_once_per_leg defaultArbConfig failEnv emptyArbState
    [scenarioSnap, scenarioSnap] "KXBTC15M-T"
    (by simp [emptyArbState]) (by simp [emptyArbState])

/-- Counterexample to C3 as stated: on a both-venues-present snapshot on which
leg 1 is handled but does not qualify (`sumUp = 1.20` out of band) while leg 2
does (`sumDown = 0.80`), `checkArbAndPlaceOrders` does evaluate leg 2 on that
very tick: the DOWN done-set is mutated and a DOWN-leg Kalshi order is
submitted — so it is not true that leg 2 is skipped "whether or not leg 1
qualified". -/
theorem checkArb_leg2_same_tick_cex :
    (checkArbAndPlaceOrders defaultArbConfig okEnv emptyArbState downOnlySnap).1.downArbDoneTickers ≠
      emptyArbState.downArbDoneTickers ∧
    1 ≤ kalshiOrderCount "KXBTC15M-T" KSide.no
        (checkArbAndPlaceOrders defaultArbConfig okEnv emptyArbState downOnlySnap).2 := by
  have h : checkArbAndPlaceOrders defaultArbConfig okEnv emptyArbState downOnlySnap =
      ({ upArbDoneTickers := [], downArbDoneTickers := ["KXBTC15M-T"] },
       [Effect.logLine "[Arb] Opportunity (DOWN leg)",
        Effect.kalshiOrder "KXBTC15M-T" KSide.no 1 31,
        Effect.polyOrder "tokUp" (51 / 100) 1]) := by
    norm_num [checkArbAndPlaceOrders, downOnlySnap, defaultArbConfig, inRange, jsRound,
      okEnv, emptyArbState, downLegLiveEffects]
  rw [h]
  refine ⟨by simp [emptyArbState], ?_⟩
  rw [kalshiOrderCount_cons_log, kalshiOrderCount_cons_kalshi]
  simp

/-- Amended C3: whenever leg 1 *qualifies* (`sumUp` in band) — whether it fires
or the ticker had already fired — `checkArbAndPlaceOrders` returns without
evaluating leg 2 on the same tick: the DOWN done-set is unchanged and no
DOWN-leg order is submitted, so one tick can never fire both legs even when
both sums qualify. (When leg 1 does not qualify, leg 2 is evaluated.) -/
theorem checkArb_leg1_band_skips_leg2 (cfg : ArbConfig) (env : ArbEnv)
    (st : ArbState) (p : DualMarketPrices) (k : MarketPrices) (poly : PolymarketPrices)
    (hk : p.kalshi = some k) (hp : p.polymarket = some poly)
    (hq : inRange cfg ((k.upAskCents : ℚ) / 100 + poly.downAsk) = true) :
    (checkArbAndPlaceOrders cfg env st p).1.downArbDoneTickers = st.downArbDoneTickers ∧
    ∀ t, kalshiOrderCount t KSide.no (checkArbAndPlaceOrders cfg env st p).2 = 0 := by
  obtain ⟨kt, k0, po⟩ := p
  simp only at hk hp
  subst hk
  subst hp
  unfold checkArbAndPlaceOrders
  dsimp only at hq ⊢
  rw [if_pos hq]
  by_cases hmem : kt ∈ st.upArbDoneTickers
  · rw [if_pos hmem]
    exact ⟨rfl, fun t => rfl⟩
  · rw [if_neg hmem]
    cases hd : cfg.ARB_DRY_RUN
    · simp only [Bool.false_eq_true, if_false]
      refine ⟨by first | rfl | trivial, fun t => ?_⟩
      rw [kalshiOrderCount_cons_log, kalshiOrderCount_upLegLiveEffects]
      have hne : ¬(kt = t ∧ KSide.yes = KSide.no) := by
        rintro ⟨-, hcontra⟩
        exact KSide.noConfusion hcontra
      rw [if_neg hne]
    · simp only [if_true]
      exact ⟨by first | rfl | trivial,
        fun t => by rw [kalshiOrderCount_cons_log, kalshiOrderCount_nil]⟩

/-- Witness for the amended C3: on the §8 scenario snapshot leg 1 qualifies,
and the DOWN done-set stays empty with no DOWN-leg submission. -/
theorem checkArb_leg1_band_skips_leg2_witness :
    (checkArbAndPlaceOrders defaultArbConfig okEnv emptyArbState scenarioSnap).1.downArbDoneTickers =
      emptyArbState.downArbDoneTickers ∧
    ∀ t, kalshiOrderCount t KSide.no
      (checkArbAndPlaceOrders defaultArbConfig okEnv emptyArbState scenarioSnap).2 = 0 :=
  checkArb_leg1_band_skips_leg2 defaultArbConfig okEnv emptyArbState scenarioSnap
    _ _ rfl rfl (by norm_num [inRange, defaultArbConfig, scenarioSnap])

/-- Claim C9: when the UP leg fires live, the submitted Kalshi order carries
`Math.round((kUp + buffer) · 100)` cents — which `placeOrder` clamps into the
Kalshi 1–99 ceiling (`kalshiWirePrice`) before submission — and the Polymarket
order carries `min 1 (downAsk + buffer)`, capped at the venue ceiling 1. -/
theorem arb_limit_prices (cfg : ArbConfig) (env : ArbEnv) (st : ArbState)
    (p : DualMarketPrices) (k : MarketPrices) (poly : PolymarketPrices)
    (hk : p.kalshi = some k) (hp : p.polymarket = some poly)
    (hq : inRange cfg ((k.upAskCents : ℚ) / 100 + poly.downAsk) = true)
    (hnew : p.kalshiTicker ∉ st.upArbDoneTickers)
    (hlive : cfg.ARB_DRY_RUN = false) :
    Effect.kalshiOrder p.kalshiTicker KSide.yes
        (max cfg.ARB_KALSHI_MIN (jsRound cfg.ARB_SIZE))
        (jsRound (((k.upAskCents : ℚ) / 100 + cfg.ARB_PRICE_BUFFER) * 100)) ∈
      (checkArbAndPlaceOrders cfg env st p).2 ∧
    1 ≤ kalshiWirePrice (jsRound (((k.upAskCents : ℚ) / 100 + cfg.ARB_PRICE_BUFFER) * 100)) ∧
    kalshiWirePrice (jsRound (((k.upAskCents : ℚ) / 100 + cfg.ARB_PRICE_BUFFER) * 100)) ≤ 99 ∧
    min 1 (poly.downAsk + cfg.ARB_PRICE_BUFFER) ≤ 1 ∧
    (∀ ids, env.tokenIdsForSlug poly.slug = Except.ok ids →
      Effect.polyOrder ids.downTokenId (min 1 (poly.downAsk + cfg.ARB_PRICE_BUFFER))
        (max cfg.ARB_POLY_MIN cfg.ARB_SIZE) ∈ (checkArbAndPlaceOrders cfg env st p).2) := by
  obtain ⟨kt, k0, po⟩ := p
  simp only at hk hp hnew
  subst hk
  subst hp
  unfold checkArbAndPlaceOrders
  dsimp only at hq ⊢
  rw [if_pos hq, if_neg hnew]
  simp only [hlive, Bool.false_eq_true, if_false]
  refine ⟨?_, le_max_left _ _, max_le (by norm_num) (min_le_left _ _), min_le_left _ _, ?_⟩
  · apply List.mem_cons_of_mem
    unfold upLegLiveEffects
    cases henv : env.tokenIdsForSlug poly.slug with
    | error e => exact List.mem_singleton_self _
    | ok ids => simp
  · intro ids hids
    apply List.mem_cons_of_mem
    unfold upLegLiveEffects
    rw [hids]
    simp

/-- Witness for C9, the §8 scenario: buffer 0.01, Kalshi UP ask 0.40,
Polymarket DOWN ask 0.48 — the submitted limits are 41 cents on Kalshi
(already inside 1–99, clamp is identity) and 0.49 on Polymarket (unchanged by
the default 0.01 tick rounding). -/
theorem arb_limit_prices_witness :
    Effect.kalshiOrder "KXBTC15M-T" KSide.yes 1 41 ∈
      (checkArbAndPlaceOrders defaultArbConfig okEnv emptyArbState scenarioSnap).2 ∧
    Effect.polyOrder "tokDown" (49 / 100) 1 ∈
      (checkArbAndPlaceOrders defaultArbConfig okEnv emptyArbState scenarioSnap).2 ∧
    kalshiWirePrice 41 = 41 ∧
    roundPriceToTickSize (49 / 100) "0.01" = 49 / 100 := by
  have h := arb_limit_prices defaultArbConfig okEnv emptyArbState scenarioSnap
    { ticker := "KXBTC15M-T", upAskCents := 40, downAskCents := 55, lastPriceCents := 40 }
    { slug := "btc-updown-15m-1", upAsk := 19 / 50, downAsk := 12 / 25 }
    rfl rfl (by norm_num [inRange, defaultArbConfig, scenarioSnap])
    (by simp [emptyArbState, scenarioSnap]) rfl
  obtain ⟨hmemk, -, -, -, hpoly⟩ := h
  have e1 : max defaultArbConfig.ARB_KALSHI_MIN (jsRound defaultArbConfig.ARB_SIZE) = 1 := by
    norm_num [defaultArbConfig, jsRound]
  have e2 : jsRound ((((40 : ℤ) : ℚ) / 100 + defaultArbConfig.ARB_PRICE_BUFFER) * 100) = 41 := by
    norm_num [defaultArbConfig, jsRound]
  have e3 : min (1 : ℚ) (12 / 25 + defaultArbConfig.ARB_PRICE_BUFFER) = 49 / 100 := by
    norm_num [defaultArbConfig]
  have e4 : max defaultArbConfig.ARB_POLY_MIN defaultArbConfig.ARB_SIZE = 1 := by
    norm_num [defaultArbConfig]
  have hpoly2 := hpoly ⟨"tokUp", "tokDown"⟩ rfl
  rw [e1, e2] at hmemk
  rw [e3, e4] at hpoly2
  refine ⟨by simpa [scenarioSnap] using hmemk, by simpa using hpoly2, ?_, ?_⟩
  · norm_num [kalshiWirePrice]
  · norm_num [roundPriceToTickSize, jsRound]

end PKArb
